import Mathlib

/-!
Shallow embedding of the go-i2p common-structures codec layer
(lib/common/data string reader, lib/common/certificate, lib/common/signature,
lib/common/lease_set, lib/common/router_info), together with theorems that
settle the specification claims about it.

Bytes are modelled as `List Nat` with big-endian value given by `beVal`.
Go multi-value returns `(value, remainder, err)` are modelled as tuples with
`Option String` for the error slot (Go's `nil` error is `none`); Go zero
values of slices are the empty list.

Parts of the repository that the claims depend on but whose source files are
not available (the data package's Integer, Date and Mapping codecs, the
KeysAndCert / RouterIdentity / Destination readers, the KeyCertificate
signature-size table, the RouterAddress reader and the Lease size) are
modelled from the specification; each such definition carries a doc comment
starting with "Modelled from the spec:".
-/

set_option maxRecDepth 100000
set_option maxHeartbeats 1000000

namespace GoI2P

/-- Bytes of the wire format; each element is one byte value. -/
abbrev Bytes := List Nat

/-- Big-endian value of a byte string (the data package's `Integer.Int()`). -/
def beVal (bs : Bytes) : Nat := bs.foldl (fun acc b => acc * 256 + b) 0

theorem beVal_nil : beVal [] = 0 := rfl

theorem beVal_singleton (b : Nat) : beVal [b] = b := by
  simp [beVal]

theorem beVal_pair (b c : Nat) : beVal [b, c] = 256 * b + c := by
  simp [beVal, List.foldl]
  ring

/-- Modelled from the spec: `lib/common/data.NewInteger` is not under src/.
"Integer: parse(src, n) -> (value, rest) | ShortInput; width n in [1,8];
value is big-endian unsigned."  The value keeps its n-byte form (`Integer` is
a byte slice); parsing fails exactly when fewer than `n` bytes are available. -/
def NewInteger (data : Bytes) (size : Nat) : Except String (Bytes × Bytes) :=
  if data.length < size then .error "error parsing integer: not enough data"
  else .ok (data.take size, data.drop size)

/-- `(I2PString) Length` from the data package (src/unnamed/part_000 lines 33-71):
returns the length declared by the first byte together with the warning or
error produced, mirroring the Go control flow. -/
def I2PString.Length (str : Bytes) : Nat × Option String :=
  if str.length = 0 then (0, some "error parsing string: zero length")
  else
    match NewInteger str 1 with
    | .error e => (0, some e)
    | .ok (l, _) =>
      let length := beVal l
      let str_len := str.length
      if str_len - 1 < length then
        (length, some "string parsing warning: string data is shorter than specified by length")
      else if length < str_len - 1 then
        (length, some "string parsing warning: string contains data beyond length")
      else (length, none)

/-- `ReadI2PString` (src/unnamed/part_000 lines 141-177).  Mirrors the Go code:
empty input is an error; the declared length plus one is compared against the
available data and a hard error is returned when it exceeds it; otherwise the
subslice and remainder are produced and `Length` is consulted for warnings. -/
def ReadI2PString (data : Bytes) : Bytes × Bytes × Option String :=
  if data.length = 0 then ([], [], some "data slice is empty")
  else
    match NewInteger data 1 with
    | .error e => ([], [], some e)
    | .ok (length, _) =>
      let data_len := beVal length + 1
      if data.length < data_len then
        ([], [], some ("I2PString length " ++ toString (data_len - 1) ++
          " exceeds available data " ++ toString (data.length - 1)))
      else
        let str := data.take data_len
        let remainder := data.drop data_len
        let lerr := I2PString.Length str
        if lerr.1 ≠ data_len - 1 then
          (str, remainder, some "error reading I2P string, length does not match data")
        else (str, remainder, lerr.2)

/-- Certificate type constant `CERT_KEY` (src/unnamed/part_001). -/
def CERT_KEY : Nat := 5

/-- Minimum certificate size: 1 type byte + 2 length bytes. -/
def CERT_MIN_SIZE : Nat := 3

/-- `Certificate` (src/unnamed/part_001): kind and len keep their byte form
(they are `Integer`s in the source); payload is everything after them. -/
structure Certificate where
  kind : Bytes
  len : Bytes
  payload : Bytes
deriving DecidableEq, Repr

/-- `Certificate.RawBytes` (src/unnamed/part_001 lines 74-83): kind bytes,
length bytes and the full payload, excess included. -/
def Certificate.RawBytes (c : Certificate) : Bytes :=
  c.kind ++ c.len ++ c.payload

/-- `Certificate.ExcessBytes` (src/unnamed/part_001 lines 86-96). -/
def Certificate.ExcessBytes (c : Certificate) : Bytes :=
  if beVal c.len ≤ c.payload.length then c.payload.drop (beVal c.len) else []

/-- `Certificate.Type` (src/unnamed/part_001 lines 115-121); `Type` is a Lean
keyword, hence the name `typeVal`. -/
def Certificate.typeVal (c : Certificate) : Nat := beVal c.kind

/-- `Certificate.Length` (src/unnamed/part_001 lines 124-130). -/
def Certificate.lengthVal (c : Certificate) : Nat := beVal c.len

/-- `Certificate.Data` (src/unnamed/part_001 lines 133-145): payload trimmed
to the declared length, or the whole payload when it is shorter. -/
def Certificate.Data (c : Certificate) : Bytes :=
  if c.payload.length < beVal c.len then c.payload else c.payload.take (beVal c.len)

/-- `readCertificate` (src/unnamed/part_001 lines 149-196), mirroring the Go
switch on the input length and the shorter-than-specified check. -/
def readCertificate (data : Bytes) : Certificate × Option String :=
  if data.length = 0 then
    ({ kind := [0], len := [0], payload := [] },
     some "error parsing certificate: certificate is empty")
  else if data.length = 1 ∨ data.length = 2 then
    ({ kind := data.take (data.length - 1), len := [0], payload := [] },
     some "error parsing certificate: certificate is too short")
  else
    let cert : Certificate :=
      { kind := data.take 1, len := (data.drop 1).take 2, payload := data.drop CERT_MIN_SIZE }
    if data.length - CERT_MIN_SIZE < beVal cert.len then
      (cert, some "certificate parsing warning: certificate data is shorter than specified by length")
    else (cert, none)

/-- `ReadCertificate` (src/unnamed/part_001 lines 200-211): suppresses only an
error whose message equals the literal "longer than specified" string, then
returns the certificate's excess bytes as the remainder. -/
def ReadCertificate (data : Bytes) : Certificate × Bytes × Option String :=
  let ce := readCertificate data
  let err : Option String :=
    match ce.2 with
    | some e =>
      if e = "certificate parsing warning: certificate data is longer than specified by length"
      then none else some e
    | none => none
  (ce.1, ce.1.ExcessBytes, err)

theorem readCertificate_cons (a b c : Nat) (rest : Bytes) :
    readCertificate (a :: b :: c :: rest) =
      ({ kind := [a], len := [b, c], payload := rest },
       if rest.length < beVal [b, c] then
         some "certificate parsing warning: certificate data is shorter than specified by length"
       else none) := by
  have h0 : ¬(rest.length + 1 + 1 + 1 = 0) := by omega
  have h12 : ¬(rest.length + 1 + 1 + 1 = 1 ∨ rest.length + 1 + 1 + 1 = 2) := by omega
  have h3 : rest.length + 1 + 1 + 1 - 3 = rest.length := by omega
  have htake : List.take 1 (a :: b :: c :: rest) = [a] := rfl
  have hmid : List.take 2 (List.drop 1 (a :: b :: c :: rest)) = [b, c] := rfl
  have hdrop : List.drop 3 (a :: b :: c :: rest) = rest := rfl
  simp only [readCertificate, CERT_MIN_SIZE, List.length_cons, if_neg h0, if_neg h12, h3,
    htake, hmid, hdrop]
  split <;> rfl

/-- `DSA_SHA1_SIZE` (src/lib/common/signature/signature.go). -/
def DSA_SHA1_SIZE : Nat := 40

/-- `ReadSignature` (src/lib/common/signature/signature.go lines 53-64):
assumes the default DSA-SHA1 width of 40 bytes. -/
def ReadSignature (data : Bytes) : Bytes × Bytes × Option String :=
  let sigLength := DSA_SHA1_SIZE
  if data.length < sigLength then
    ([], [], some ("insufficient data to read signature: need " ++ toString sigLength ++
      " bytes, have " ++ toString data.length))
  else (data.take sigLength, data.drop sigLength, none)

/-- `NewSignature` (src/lib/common/signature/signature.go lines 68-81):
on error the signature pointer is nil (`none`). -/
def NewSignature (data : Bytes) : Option Bytes × Bytes × Option String :=
  let srr := ReadSignature data
  match srr.2.2 with
  | some e => (none, srr.2.1, some e)
  | none => (some srr.1, srr.2.1, none)

/-- Modelled from the spec: `lib/common/keys_and_cert.KeysAndCert` is not under
src/.  "256-byte public-key region + 128-byte signing-key region + trailing
Certificate"; the 384 key bytes are kept together here since the claims never
split them. -/
structure KeysAndCert where
  keyBytes : Bytes
  cert : Certificate
deriving DecidableEq, Repr

/-- Modelled from the spec: serialization of a KeysAndCert is the 384 key
bytes followed by the certificate's kind, length and payload trimmed to the
declared length (`Certificate.Bytes`). -/
def KeysAndCert.Bytes (k : KeysAndCert) : Bytes :=
  k.keyBytes ++ k.cert.kind ++ k.cert.len ++ k.cert.Data

/-- Modelled from the spec: `lib/common/keys_and_cert.ReadKeysAndCert` is not
under src/.  "Ensure len(src) >= 387; read the Certificate beginning at byte
384. ... The remainder after parsing is everything after the certificate's
declared payload end." -/
def ReadKeysAndCert (data : Bytes) : Except String (KeysAndCert × Bytes) :=
  if data.length < 387 then
    .error "error parsing KeysAndCert: data is smaller than minimum valid size"
  else
    let ce := readCertificate (data.drop 384)
    match ce.2 with
    | some e => .error e
    | none =>
      .ok ({ keyBytes := data.take 384, cert := ce.1 },
           data.drop (387 + beVal ce.1.len))

/-- Modelled from the spec: `router_identity.ReadRouterIdentity` is not under
src/; "RouterIdentity and Destination are structural aliases" of KeysAndCert,
so reading one is reading a KeysAndCert. -/
def ReadRouterIdentity (data : Bytes) : Except String (KeysAndCert × Bytes) :=
  ReadKeysAndCert data

/-- Modelled from the spec: the signing-key table of section 3 as used by
`key_certificate.KeyCertificate.SignatureSize` (not under src/): signature
widths per signing type; types outside the table are not specified. -/
def sigSizeOfSigningType (t : Nat) : Option Nat :=
  match t with
  | 0 => some 40
  | 1 => some 64
  | 2 => some 96
  | 3 => some 132
  | 4 => some 256
  | 5 => some 384
  | 6 => some 512
  | 7 => some 64
  | 11 => some 64
  | _ => none

/-- Modelled from the spec: `KeyCertificateFromCertificate(cert).SignatureSize()`
(key_certificate package, not under src/): the signing type is the big-endian
u16 at the start of the certificate payload and the width comes from the
signing-key table.  Types outside the table are modelled as width 0; the
theorems below only invoke this at table types. -/
def SignatureSize (cert : Certificate) : Nat :=
  (sigSizeOfSigningType (beVal (cert.payload.take 2))).getD 0

/-- Sizes of LeaseSet fields (src/lib/common/lease_set/lease_set.go). -/
def LEASE_SET_PUBKEY_SIZE : Nat := 256

/-- 128-byte signing-key slot size (src/lib/common/lease_set/lease_set.go). -/
def LEASE_SET_SPK_SIZE : Nat := 128

/-- Default 40-byte signature size (src/lib/common/lease_set/lease_set.go). -/
def LEASE_SET_SIG_SIZE : Nat := 40

/-- Modelled from the spec: `lease.LEASE_SIZE` is not under src/; "Lease:
32-byte tunnel-gateway hash + 4-byte tunnel id + 8-byte end Date = 44 bytes". -/
def LEASE_SIZE : Nat := 44

/-- `LeaseSet.Destination` (src/lib/common/lease_set/lease_set.go lines
138-151): reads the KeysAndCert from the lease set and re-reads a Destination
from its serialized bytes. -/
def leaseSetDestination (ls : Bytes) : Except String KeysAndCert :=
  match ReadKeysAndCert ls with
  | .error e => .error e
  | .ok (kac, _) =>
    match ReadKeysAndCert kac.Bytes with
    | .error e => .error e
    | .ok (dest, _) => .ok dest

/-- `LeaseSet.LeaseCount` (src/lib/common/lease_set/lease_set.go lines
237-268): the count byte sits 384 bytes into the remainder after the
KeysAndCert; a count above 16 is returned together with a warning error. -/
def leaseSetLeaseCount (ls : Bytes) : Nat × Option String :=
  match ReadKeysAndCert ls with
  | .error e => (0, some e)
  | .ok (_, remainder) =>
    if remainder.length < LEASE_SET_PUBKEY_SIZE + LEASE_SET_SPK_SIZE + 1 then
      (0, some "error parsing lease count: not enough data")
    else
      let count := remainder.getD (LEASE_SET_PUBKEY_SIZE + LEASE_SET_SPK_SIZE) 0
      if 16 < count then (count, some "invalid lease set: more than 16 leases")
      else (count, none)

/-- `LeaseSet.Signature` (src/lib/common/lease_set/lease_set.go lines
307-348): the signature starts after the destination bytes, the 256-byte
encryption key, the 128-byte signing-key slot, the count byte and the lease
array; its width is `SignatureSize` for a KEY certificate and 40 otherwise. -/
def leaseSetSignature (ls : Bytes) : Bytes × Option String :=
  match leaseSetDestination ls with
  | .error e => ([], some e)
  | .ok destination =>
    match leaseSetLeaseCount ls with
    | (_, some e) => ([], some e)
    | (lease_count, none) =>
      let start := destination.Bytes.length + LEASE_SET_PUBKEY_SIZE +
        LEASE_SET_SPK_SIZE + 1 + LEASE_SIZE * lease_count
      let cert := destination.cert
      let endPos :=
        if cert.typeVal = CERT_KEY then start + SignatureSize cert
        else start + LEASE_SET_SIG_SIZE
      if ls.length < endPos then ([], some "error parsing signature: not enough data")
      else ((ls.drop start).take (endPos - start), none)

/-- Modelled from the spec: `lib/common/data.NewDate` is not under src/.
"Date: Integer of width 8"; parsing fails iff fewer than 8 bytes are
available, with Go's zero-valued (nil) remainder on failure. -/
def NewDate (data : Bytes) : Except String (Bytes × Bytes) :=
  if data.length < 8 then .error "error parsing date: not enough data"
  else .ok (data.take 8, data.drop 8)

/-- A parsed Mapping: the consumed wire bytes plus the parsed entries. -/
structure Mapping where
  raw : Bytes
  vals : List (Bytes × Bytes)
deriving DecidableEq, Repr

/-- Modelled from the spec: `Mapping.Data` (data package, not under src/)
returns the wire form, the 2-byte length prefix followed by the body; it is
modelled as the consumed bytes, which for a canonically sorted mapping
coincides with the deterministic re-serialization of section 4.2. -/
def Mapping.Data (m : Mapping) : Bytes := m.raw

/-- Modelled from the spec: the entry loop of `data.NewMapping` (section 4.2):
"repeatedly read key, expect `=`, read value, expect `;`; collect all
syntactic errors into a list rather than aborting at the first".  Fuel bounds
the recursion by the body length. -/
def parseMappingEntries : Nat → Bytes → List (Bytes × Bytes) × List String
  | 0, _ => ([], [])
  | _ + 1, [] => ([], [])
  | fuel + 1, body =>
    match ReadI2PString body with
    | (_, _, some e) => ([], [e])
    | (key, rest1, none) =>
      match rest1 with
      | 61 :: rest2 =>
        match ReadI2PString rest2 with
        | (_, _, some e) => ([], [e])
        | (value, rest3, none) =>
          match rest3 with
          | 59 :: rest4 =>
            let more := parseMappingEntries fuel rest4
            ((key, value) :: more.1, more.2)
          | _ => ([(key, value)], ["mapping format violation, expected ;"])
      | _ => ([], ["mapping format violation, expected ="])

/-- Modelled from the spec: `lib/common/data.NewMapping` is not under src/.
"2-byte total-length prefix, then zero or more entries"; "read S; consume
exactly S body bytes; ... return the partially parsed mapping and the error
list", the remainder being the bytes after the S-byte body. -/
def NewMapping (data : Bytes) : Mapping × Bytes × List String :=
  if data.length < 2 then
    ({ raw := data, vals := [] }, [], ["zero length"])
  else
    let size := beVal (data.take 2)
    if (data.drop 2).length < size then
      ({ raw := data, vals := [] }, [],
       ["warning parsing mapping: mapping length exceeds provided data"])
    else
      let body := (data.drop 2).take size
      let remainder := (data.drop 2).drop size
      let pe := parseMappingEntries (body.length + 1) body
      ({ raw := data.take (2 + size), vals := pe.1 }, remainder, pe.2)

/-- Modelled from the spec: `router_address.ReadRouterAddress` is not under
src/ (section 4.10): cost u8, expiration Date, transport I2PString, options
Mapping, serialized in that order; the consumed bytes are returned as the
address.  Inside `ReadRouterInfo`'s loop the Go code shadows `err`, so any
error returned here never reaches the outer error anyway. -/
def ReadRouterAddress (data : Bytes) : Bytes × Bytes × Option String :=
  match NewInteger data 1 with
  | .error e => ([], [], some e)
  | .ok (cost, r1) =>
    match NewDate r1 with
    | .error e => ([], [], some e)
    | .ok (expiration, r2) =>
      match ReadI2PString r2 with
      | (_, _, some e) => ([], [], some e)
      | (transport, r3, none) =>
        let mp := NewMapping r3
        (cost ++ expiration ++ transport ++ mp.1.raw, mp.2.1, none)

/-- `RouterInfo` (src/lib/common/router_info/router_info.go lines 109-117);
the pointer fields hold the parsed byte forms, Go nil pointers being empty. -/
structure RouterInfo where
  router_identity : KeysAndCert
  published : Bytes
  size : Bytes
  addresses : List Bytes
  peer_size : Bytes
  options : Mapping
  signature : Bytes
deriving DecidableEq, Repr

/-- The zero-valued RouterInfo used before fields are assigned. -/
def emptyRouterInfo : RouterInfo :=
  { router_identity := { keyBytes := [], cert := { kind := [], len := [], payload := [] } },
    published := [], size := [], addresses := [], peer_size := [],
    options := { raw := [], vals := [] }, signature := [] }

/-- `RouterInfo.Bytes` (src/lib/common/router_info/router_info.go lines
120-133): identity, published date, address count, addresses, the stored
peer-size byte, the options wire data and the signature, concatenated. -/
def RouterInfo.Bytes (ri : RouterInfo) : Bytes :=
  ri.router_identity.Bytes ++ ri.published ++ ri.size ++
    ri.addresses.foldl (fun acc a => acc ++ a) [] ++
    ri.peer_size ++ ri.options.Data ++ ri.signature

/-- `RouterInfo.PeerSize` (src/lib/common/router_info/router_info.go lines
183-187): returns the constant 0 without consulting the stored field. -/
def PeerSize (_ : RouterInfo) : Nat := 0

/-- The address loop of `ReadRouterInfo` (src/lib/common/router_info/
router_info.go lines 240-253): the Go code declares `err` afresh inside the
loop with `:=`, shadowing the outer error, so address parse errors are
discarded; the address is appended even when its parse failed. -/
def readAddresses : Nat → Bytes → List Bytes × Bytes
  | 0, remainder => ([], remainder)
  | n + 1, remainder =>
    let arr := ReadRouterAddress remainder
    let more := readAddresses n arr.2.1
    (arr.1 :: more.1, more.2)

/-- `ReadRouterInfo` (src/lib/common/router_info/router_info.go lines
204-293), mirroring the Go error flow: the identity error returns at once; the
date and size errors are written to `err` but later overwritten by the
peer-size read; address errors are shadowed; the mapping error list sets `err`
but the signature read then overwrites it, so the returned error is non-nil
only when the identity, peer-size byte or signature read fails. -/
def readRouterInfo (bytes : Bytes) : RouterInfo × Bytes × Option String :=
  match ReadRouterIdentity bytes with
  | .error _ => (emptyRouterInfo, [], some "error parsing router info: not enough data")
  | .ok (rid, r1) =>
    let pubr : Bytes × Bytes :=
      match NewDate r1 with
      | .error _ => ([], [])
      | .ok pr => pr
    let sizer : Bytes × Bytes :=
      match NewInteger pubr.2 1 with
      | .error _ => ([], [])
      | .ok sr => sr
    let addrs := readAddresses (beVal sizer.1) sizer.2
    match NewInteger addrs.2 1 with
    | .error e =>
      ({ router_identity := rid, published := pubr.1, size := sizer.1,
         addresses := addrs.1, peer_size := [],
         options := { raw := [], vals := [] }, signature := [] }, [], some e)
    | .ok (peerB, r5) =>
      let mp := NewMapping r5
      let info : RouterInfo :=
        { router_identity := rid, published := pubr.1, size := sizer.1,
          addresses := addrs.1, peer_size := peerB, options := mp.1, signature := [] }
      match NewSignature mp.2.1 with
      | (some sig, r7, none) => ({ info with signature := sig }, r7, none)
      | (_, r7, _) => (info, r7, some "error parsing router info: not enough data")

/-- `MIN_GOOD_VERSION` (src/lib/common/router_info/router_info.go). -/
def MIN_GOOD_VERSION : Nat := 58

/-- `MAX_GOOD_VERSION` (src/lib/common/router_info/router_info.go). -/
def MAX_GOOD_VERSION : Nat := 99

/-- Go's `strings.Split` restricted to a one-character separator, on the
character list of the string: splitting keeps empty fields and an empty input
yields one empty field. -/
def splitOnChar (sep : Char) : List Char → List (List Char)
  | [] => [[]]
  | c :: rest =>
    let r := splitOnChar sep rest
    if c = sep then [] :: r else (c :: r.headD []) :: r.tail

/-- Decimal value of a digit string. -/
def digitsVal (l : List Char) : Nat :=
  l.foldl (fun a c => a * 10 + (c.toNat - 48)) 0

/-- Non-empty and all decimal digits: the syntax `strconv.Atoi` accepts after
an optional sign. -/
def isAllDigits (l : List Char) : Bool :=
  !l.isEmpty && l.all (fun c => c.isDigit)

/-- Go's `strconv.Atoi` as used by `GoodVersion`, which discards the error:
an optional single `+` or `-` sign followed by one or more decimal digits
yields the signed value, anything else yields 0 (the zero value Go returns
with a syntax error).  Go clamps out-of-range values to the int64 extremes;
the unbounded value used here lies in [58,99] exactly when the clamped one
does, which is all `GoodVersion` inspects. -/
def atoiVal (s : List Char) : Int :=
  match s with
  | [] => 0
  | c :: rest =>
    if c = '+' then (if isAllDigits rest then (digitsVal rest : Int) else 0)
    else if c = '-' then (if isAllDigits rest then -((digitsVal rest : Int)) else 0)
    else if isAllDigits (c :: rest) then (digitsVal (c :: rest) : Int) else 0

/-- `RouterInfo.GoodVersion` (src/lib/common/router_info/router_info.go lines
321-339), as a predicate on the `router.version` option string: split on '.',
require exactly three fields, the first "0", the second "9", and the Atoi
value of the third between `MIN_GOOD_VERSION` and `MAX_GOOD_VERSION`. -/
def GoodVersion (version : String) : Bool :=
  let v := splitOnChar '.' version.data
  if v.length ≠ 3 then false
  else if v.getD 0 [] = ['0'] then
    if v.getD 1 [] = ['9'] then
      let val := atoiVal (v.getD 2 [])
      decide ((MIN_GOOD_VERSION : Int) ≤ val ∧ val ≤ (MAX_GOOD_VERSION : Int))
    else false
  else false

/-! ## Helper lemmas -/

theorem newInteger_cons_one (b : Nat) (rest : Bytes) :
    NewInteger (b :: rest) 1 = .ok ([b], rest) := by
  simp [NewInteger]

theorem readCertificate_err_cases (data : Bytes) :
    (readCertificate data).2 = none ∨
    (readCertificate data).2 = some "error parsing certificate: certificate is empty" ∨
    (readCertificate data).2 = some "error parsing certificate: certificate is too short" ∨
    (readCertificate data).2 =
      some "certificate parsing warning: certificate data is shorter than specified by length" := by
  unfold readCertificate
  split
  · simp
  · split
    · simp
    · dsimp only
      split <;> simp

theorem list_shape_of_three_le {src : Bytes} (h : 3 ≤ src.length) :
    ∃ a b c rest, src = a :: b :: c :: rest := by
  match src, h with
  | a :: b :: c :: rest, _ => exact ⟨a, b, c, rest, rfl⟩

/-! ## Claim theorems -/

/-- Claim C1, counterexample: on `src = [5, 104, 105]` the first byte declares
length 5 while only 2 data bytes follow; the claim says `ReadI2PString` still
produces the subslice as-is with an empty remainder and a warning, but the
code returns the nil (empty) string with a hard error, so the I2PString it
returns is not the subslice. -/
theorem c1_short_string_not_recovered :
    (ReadI2PString [5, 104, 105]).1 = [] ∧
    (ReadI2PString [5, 104, 105]).1 ≠ [5, 104, 105] ∧
    (ReadI2PString [5, 104, 105]).2.2 ≠ none := by
  decide

/-- Claim C1 as amended: for every byte slice whose first byte declares a
length `L` exceeding `len(src) - 1`, `ReadI2PString` fails hard, returning a
nil I2PString, a nil remainder, and the formatted length-exceeds error. -/
theorem c1_short_string_hard_error (b : Nat) (rest : Bytes) (h : rest.length < b) :
    ReadI2PString (b :: rest) =
      ([], [], some ("I2PString length " ++ toString b ++
        " exceeds available data " ++ toString rest.length)) := by
  have hne : ¬((b :: rest).length = 0) := by simp
  have hlt : (b :: rest).length < beVal [b] + 1 := by
    simp [beVal_singleton]; omega
  simp only [ReadI2PString, if_neg hne, newInteger_cons_one, if_pos hlt]
  simp [beVal_singleton]

/-- Witness for `c1_short_string_hard_error` at `b = 5`, `rest = [104, 105]`. -/
theorem c1_short_string_hard_error_witness :
    ReadI2PString [5, 104, 105] =
      ([], [], some "I2PString length 5 exceeds available data 2") :=
  c1_short_string_hard_error 5 [104, 105] (by decide)

/-- Claim C2: inputs shorter than 3 bytes are hard errors; otherwise the
certificate's kind is `src[0]`, its declared length is the big-endian u16 at
`src[1..3]` and its payload is `src[3..]`; a declared length exceeding
`len(src) - 3` is the "shorter than specified" hard error, and otherwise
`ReadCertificate` succeeds with the last `len(src) - 3 - length` bytes as the
remainder. -/
theorem c2_readCertificate_shape (src : Bytes) :
    (src.length < 3 → (readCertificate src).2 ≠ none ∧ (ReadCertificate src).2.2 ≠ none)
    ∧ (3 ≤ src.length →
        (readCertificate src).1.typeVal = src.headD 0
        ∧ (readCertificate src).1.lengthVal = beVal ((src.drop 1).take 2)
        ∧ (readCertificate src).1.payload = src.drop 3
        ∧ (src.length - 3 < beVal ((src.drop 1).take 2) →
            (readCertificate src).2 =
              some "certificate parsing warning: certificate data is shorter than specified by length"
            ∧ (ReadCertificate src).2.2 ≠ none)
        ∧ (beVal ((src.drop 1).take 2) ≤ src.length - 3 →
            (ReadCertificate src).2.2 = none
            ∧ (ReadCertificate src).2.1 = src.drop (3 + beVal ((src.drop 1).take 2)))) := by
  constructor
  · intro hlt
    match src, hlt with
    | [], _ => decide
    | [a], _ =>
      refine ⟨by simp [readCertificate], ?_⟩
      simp [ReadCertificate, readCertificate]
    | [a, b], _ =>
      refine ⟨by simp [readCertificate], ?_⟩
      simp [ReadCertificate, readCertificate]
  · intro hge
    obtain ⟨a, b, c, rest, rfl⟩ := list_shape_of_three_le hge
    have hlen3 : (a :: b :: c :: rest).length - 3 = rest.length := by simp
    have hdt : ((a :: b :: c :: rest).drop 1).take 2 = [b, c] := rfl
    refine ⟨?_, ?_, ?_, ?_, ?_⟩
    · simp [readCertificate_cons, Certificate.typeVal, beVal_singleton]
    · simp [readCertificate_cons, Certificate.lengthVal, hdt]
    · simp [readCertificate_cons]
    · intro hshort
      rw [hlen3, hdt] at hshort
      constructor
      · simp [readCertificate_cons, if_pos hshort]
      · simp only [ReadCertificate, readCertificate_cons, if_pos hshort]
        simp
    · intro hok
      rw [hlen3, hdt] at hok
      have hnlt : ¬(rest.length < beVal [b, c]) := by omega
      constructor
      · simp only [ReadCertificate, readCertificate_cons, if_neg hnlt]
      · simp only [ReadCertificate, readCertificate_cons, if_neg hnlt, hdt]
        simp only [Certificate.ExcessBytes, if_pos hok]
        have : 3 + beVal [b, c] = beVal [b, c] + 3 := by omega
        rw [this]
        simp [List.drop_succ_cons]

/-- Witness for `c2_readCertificate_shape`: the short input `[1]` errs, and on
`[1, 0, 2, 170, 187, 204, 221]` the parsed kind is 1, length 2, payload the
last four bytes, and `ReadCertificate` returns the two excess bytes. -/
theorem c2_readCertificate_shape_witness :
    ((readCertificate [1]).2 ≠ none)
    ∧ (readCertificate [1, 0, 2, 170, 187, 204, 221]).1.typeVal = 1
    ∧ (ReadCertificate [1, 0, 2, 170, 187, 204, 221]).2.2 = none
    ∧ (ReadCertificate [1, 0, 2, 170, 187, 204, 221]).2.1 = [204, 221] := by
  refine ⟨((c2_readCertificate_shape [1]).1 (by decide)).1, ?_, ?_, ?_⟩
  · exact ((c2_readCertificate_shape [1, 0, 2, 170, 187, 204, 221]).2 (by decide)).1
  · exact (((c2_readCertificate_shape [1, 0, 2, 170, 187, 204, 221]).2
      (by decide)).2.2.2.2 (by decide)).1
  · exact (((c2_readCertificate_shape [1, 0, 2, 170, 187, 204, 221]).2
      (by decide)).2.2.2.2 (by decide)).2

/-- Claim C3: whenever the declared length fits in the available data, parsing
succeeds and `RawBytes` of the parsed certificate reproduces the input
exactly, excess bytes included. -/
theorem c3_rawBytes_roundtrip (src : Bytes) (h3 : 3 ≤ src.length)
    (hfit : beVal ((src.drop 1).take 2) ≤ src.length - 3) :
    (readCertificate src).2 = none ∧ (readCertificate src).1.RawBytes = src := by
  obtain ⟨a, b, c, rest, rfl⟩ := list_shape_of_three_le h3
  have hdt : ((a :: b :: c :: rest).drop 1).take 2 = [b, c] := rfl
  rw [hdt] at hfit
  have hlen3 : (a :: b :: c :: rest).length - 3 = rest.length := by simp
  rw [hlen3] at hfit
  have hnlt : ¬(rest.length < beVal [b, c]) := by omega
  constructor
  · simp [readCertificate_cons, if_neg hnlt]
  · simp [readCertificate_cons, Certificate.RawBytes]

/-- Witness for `c3_rawBytes_roundtrip` on the certificate-with-excess input. -/
theorem c3_rawBytes_roundtrip_witness :
    (readCertificate [1, 0, 2, 170, 187, 204, 221]).2 = none ∧
    (readCertificate [1, 0, 2, 170, 187, 204, 221]).1.RawBytes =
      [1, 0, 2, 170, 187, 204, 221] :=
  c3_rawBytes_roundtrip [1, 0, 2, 170, 187, 204, 221] (by decide) (by decide)

/-- Claim C9: `ReadCertificate` reports exactly the error of `readCertificate`
— its suppression branch compares against a message `readCertificate` never
produces — and the excess bytes are reported only through the remainder. -/
theorem c9_readCertificate_error_passthrough (data : Bytes) :
    (ReadCertificate data).2.2 = (readCertificate data).2 ∧
    (ReadCertificate data).2.1 = (readCertificate data).1.ExcessBytes := by
  refine ⟨?_, rfl⟩
  simp only [ReadCertificate]
  rcases readCertificate_err_cases data with h | h | h | h <;> rw [h] <;> simp

/-- Claim C5: `ReadSignature` succeeds exactly when at least 40 bytes (the
default DSA-SHA1 width) are available, returning the first 40 bytes and the
rest; on failure it returns an error and no signature. -/
theorem c5_readSignature_default_width (data : Bytes) :
    ((ReadSignature data).2.2 = none ↔ 40 ≤ data.length)
    ∧ (40 ≤ data.length → ReadSignature data = (data.take 40, data.drop 40, none))
    ∧ (data.length < 40 →
        (ReadSignature data).1 = [] ∧ (ReadSignature data).2.1 = []
        ∧ (ReadSignature data).2.2 ≠ none) := by
  refine ⟨?_, ?_, ?_⟩
  · by_cases h40 : 40 ≤ data.length
    · simp [ReadSignature, DSA_SHA1_SIZE, Nat.not_lt.mpr h40, h40]
    · simp [ReadSignature, DSA_SHA1_SIZE, if_pos (by omega : data.length < 40), h40]
  · intro h
    simp [ReadSignature, DSA_SHA1_SIZE, Nat.not_lt.mpr h]
  · intro h
    simp [ReadSignature, DSA_SHA1_SIZE, if_pos h]

/-- Witness for `c5_readSignature_default_width` at a 41-byte and a 2-byte
input. -/
theorem c5_readSignature_default_width_witness :
    ReadSignature (List.replicate 41 9) =
      (List.replicate 40 9, [9], none)
    ∧ ((ReadSignature [1, 2]).1 = [] ∧ (ReadSignature [1, 2]).2.1 = []
        ∧ (ReadSignature [1, 2]).2.2 ≠ none) := by
  constructor
  · have h := (c5_readSignature_default_width (List.replicate 41 9)).2.1 (by decide)
    rw [h]
    decide
  · exact (c5_readSignature_default_width [1, 2]).2.2 (by decide)

theorem isAllDigits_iff (l : List Char) :
    isAllDigits l = true ↔ l ≠ [] ∧ ∀ ch ∈ l, ch.isDigit := by
  simp [isAllDigits, List.isEmpty_iff, List.all_eq_true]

theorem atoiVal_nil : atoiVal [] = 0 := rfl

theorem atoiVal_plus (rest : List Char) :
    atoiVal ('+' :: rest) = if isAllDigits rest then (digitsVal rest : Int) else 0 := rfl

theorem atoiVal_minus (rest : List Char) :
    atoiVal ('-' :: rest) =
      if isAllDigits rest then -((digitsVal rest : Int)) else 0 := rfl

theorem atoiVal_unsigned (c : Char) (rest : List Char) (h1 : c ≠ '+') (h2 : c ≠ '-') :
    atoiVal (c :: rest) =
      if isAllDigits (c :: rest) then (digitsVal (c :: rest) : Int) else 0 := by
  simp [atoiVal, h1, h2]

theorem atoiVal_of_digits (l : List Char) (h : isAllDigits l = true) :
    atoiVal l = (digitsVal l : Int) := by
  cases l with
  | nil => simp [isAllDigits] at h
  | cons c rest =>
    have hc : c.isDigit := ((isAllDigits_iff _).mp h).2 c (List.mem_cons_self c rest)
    have hplus : c ≠ '+' := by intro e; rw [e] at hc; exact absurd hc (by decide)
    have hminus : c ≠ '-' := by intro e; rw [e] at hc; exact absurd hc (by decide)
    rw [atoiVal_unsigned c rest hplus hminus, if_pos h]

/-- Claim C4, counterexample: `GoodVersion` returns true on "0.9.+58", whose
third dot-separated field "+58" is not the decimal representation of any
integer n with 58 <= n <= 99 (no such representation contains a sign), so the
claimed "every string not of this form yields false" fails. -/
theorem c4_goodVersion_accepts_signed_patch :
    GoodVersion "0.9.+58" = true ∧ (∀ n : Fin 100, Nat.repr n.val ≠ "+58") := by
  constructor
  · decide
  · decide

/-- Claim C4 as amended: `GoodVersion` returns true iff the version splits on
'.' into exactly the fields "0", "9" and a patch field that is, after an
optional leading '+' sign, a non-empty string of decimal digits whose value
lies in [58, 99] — so leading zeros and a '+' sign are also accepted, because
the code takes the value of Go's `strconv.Atoi` and ignores its error. -/
theorem c4_goodVersion_characterization (version : String) :
    GoodVersion version = true ↔
      ∃ pre p, splitOnChar '.' version.data = [['0'], ['9'], pre ++ p]
        ∧ (pre = [] ∨ pre = ['+'])
        ∧ p ≠ [] ∧ (∀ ch ∈ p, ch.isDigit)
        ∧ 58 ≤ digitsVal p ∧ digitsVal p ≤ 99 := by
  constructor
  · intro hgv
    unfold GoodVersion at hgv
    by_cases h3 : (splitOnChar '.' version.data).length = 3
    case neg => rw [if_pos h3] at hgv; exact absurd hgv (by simp)
    case pos =>
      rw [if_neg (not_not.mpr h3)] at hgv
      obtain ⟨x, y, z, hxyz⟩ := List.length_eq_three.mp h3
      rw [hxyz] at hgv
      simp only [List.getD_cons_zero, List.getD_cons_succ] at hgv
      by_cases hx : x = ['0']
      case neg => rw [if_neg hx] at hgv; exact absurd hgv (by simp)
      rw [if_pos hx] at hgv
      by_cases hy : y = ['9']
      case neg => rw [if_neg hy] at hgv; exact absurd hgv (by simp)
      rw [if_pos hy] at hgv
      subst hx; subst hy
      have hval := of_decide_eq_true hgv
      simp only [MIN_GOOD_VERSION, MAX_GOOD_VERSION] at hval
      cases z with
      | nil => rw [atoiVal_nil] at hval; omega
      | cons ch zr =>
        by_cases hplus : ch = '+'
        · subst hplus
          rw [atoiVal_plus] at hval
          by_cases hd : isAllDigits zr = true
          · rw [if_pos hd] at hval
            refine ⟨['+'], zr, hxyz, Or.inr rfl,
              ((isAllDigits_iff zr).mp hd).1, ((isAllDigits_iff zr).mp hd).2, ?_, ?_⟩ <;> omega
          · rw [if_neg hd] at hval; omega
        · by_cases hminus : ch = '-'
          · subst hminus
            rw [atoiVal_minus] at hval
            by_cases hd : isAllDigits zr = true
            · rw [if_pos hd] at hval; omega
            · rw [if_neg hd] at hval; omega
          · rw [atoiVal_unsigned ch zr hplus hminus] at hval
            by_cases hd : isAllDigits (ch :: zr) = true
            · rw [if_pos hd] at hval
              refine ⟨[], ch :: zr, hxyz, Or.inl rfl,
                ((isAllDigits_iff _).mp hd).1, ((isAllDigits_iff _).mp hd).2, ?_, ?_⟩ <;> omega
            · rw [if_neg hd] at hval; omega
  · rintro ⟨pre, p, hsplit, hpre, hne, hdig, h58, h99⟩
    have hdigits : isAllDigits p = true := (isAllDigits_iff p).mpr ⟨hne, hdig⟩
    have hval : atoiVal (pre ++ p) = (digitsVal p : Int) := by
      rcases hpre with rfl | rfl
      · simpa using atoiVal_of_digits p hdigits
      · simp only [List.cons_append, List.nil_append]
        simp [atoiVal, hdigits]
    unfold GoodVersion
    rw [hsplit]
    rw [if_neg (by norm_num)]
    simp only [List.getD_cons_zero, List.getD_cons_succ]
    rw [if_pos trivial, if_pos trivial]
    apply decide_eq_true
    rw [hval]
    simp only [MIN_GOOD_VERSION, MAX_GOOD_VERSION]
    omega

/-- Claim C7: `LeaseCount` returns the byte sitting 384 positions into the
remainder after the Destination's KeysAndCert (past the 256-byte encryption
key and the 128-byte signing-key slot); a value above 16 is still returned,
together with the warning error, and a value at most 16 comes with no error. -/
theorem c7_leaseCount_warning (ls : Bytes) (kac : KeysAndCert) (rem : Bytes)
    (hp : ReadKeysAndCert ls = .ok (kac, rem)) (hlen : 385 ≤ rem.length) :
    (leaseSetLeaseCount ls).1 = rem.getD 384 0
    ∧ (16 < rem.getD 384 0 →
        (leaseSetLeaseCount ls).2 = some "invalid lease set: more than 16 leases")
    ∧ (rem.getD 384 0 ≤ 16 → (leaseSetLeaseCount ls).2 = none) := by
  have hidx : (256 + 128 : Nat) = 384 := by norm_num
  simp only [leaseSetLeaseCount, hp, LEASE_SET_PUBKEY_SIZE, LEASE_SET_SPK_SIZE, hidx]
  rw [if_neg (by omega)]
  refine ⟨?_, ?_, ?_⟩
  · split <;> rfl
  · intro h
    rw [if_pos h]
  · intro h
    rw [if_neg (by omega)]

/-- Input for the C7 witness with lease-count byte 17. -/
def lsCount17 : Bytes :=
  List.replicate 384 0 ++ [0, 0, 0] ++ List.replicate 384 0 ++ [17]

/-- Input for the C7 witness with lease-count byte 3. -/
def lsCount3 : Bytes :=
  List.replicate 384 0 ++ [0, 0, 0] ++ List.replicate 384 0 ++ [3]

/-- The KeysAndCert parsed from `lsCount17` and `lsCount3`. -/
def kacCount : KeysAndCert :=
  { keyBytes := List.replicate 384 0,
    cert := { kind := [0], len := [0, 0], payload := List.replicate 384 0 ++ [17] } }

/-- Witness for `c7_leaseCount_warning`: count byte 17 is returned with the
warning, count byte 3 with no error. -/
theorem c7_leaseCount_warning_witness :
    ((leaseSetLeaseCount lsCount17).1 = 17
      ∧ (leaseSetLeaseCount lsCount17).2 = some "invalid lease set: more than 16 leases")
    ∧ ((leaseSetLeaseCount lsCount3).1 = 3
      ∧ (leaseSetLeaseCount lsCount3).2 = none) := by
  have h17 := c7_leaseCount_warning lsCount17 kacCount
    (List.replicate 384 0 ++ [17]) (by rfl) (by simp)
  have h3 := c7_leaseCount_warning lsCount3
    { keyBytes := List.replicate 384 0,
      cert := { kind := [0], len := [0, 0], payload := List.replicate 384 0 ++ [3] } }
    (List.replicate 384 0 ++ [3]) (by rfl) (by simp)
  refine ⟨⟨?_, ?_⟩, ?_, ?_⟩
  · rw [h17.1]; decide
  · exact h17.2.1 (by decide)
  · rw [h3.1]; decide
  · exact h3.2.2 (by decide)

/-- Claim C6: with the Destination and lease count in hand, the signature
starts right after the lease array (destination bytes + 256 + 128 + 1 + 44
per lease); for a KEY certificate it is exactly the width given by the
KeyCertificate's signing type, otherwise exactly 40 bytes, and fewer
remaining bytes than that width is a hard error. -/
theorem c6_leaseSet_signature_width (ls : Bytes) (d : KeysAndCert) (c : Nat)
    (hd : leaseSetDestination ls = .ok d)
    (hc : leaseSetLeaseCount ls = (c, none)) :
    (∀ w, d.cert.typeVal = CERT_KEY →
      sigSizeOfSigningType (beVal (d.cert.payload.take 2)) = some w →
      ((d.Bytes.length + 385 + 44 * c + w ≤ ls.length →
          leaseSetSignature ls =
            ((ls.drop (d.Bytes.length + 385 + 44 * c)).take w, none)
          ∧ (leaseSetSignature ls).1.length = w)
       ∧ (ls.length < d.Bytes.length + 385 + 44 * c + w →
          (leaseSetSignature ls).2 ≠ none ∧ (leaseSetSignature ls).1 = [])))
    ∧ (d.cert.typeVal ≠ CERT_KEY →
      ((d.Bytes.length + 385 + 44 * c + 40 ≤ ls.length →
          leaseSetSignature ls =
            ((ls.drop (d.Bytes.length + 385 + 44 * c)).take 40, none)
          ∧ (leaseSetSignature ls).1.length = 40)
       ∧ (ls.length < d.Bytes.length + 385 + 44 * c + 40 →
          (leaseSetSignature ls).2 ≠ none ∧ (leaseSetSignature ls).1 = []))) := by
  have hstart : d.Bytes.length + LEASE_SET_PUBKEY_SIZE + LEASE_SET_SPK_SIZE + 1 +
      LEASE_SIZE * c = d.Bytes.length + 385 + 44 * c := by
    simp only [LEASE_SET_PUBKEY_SIZE, LEASE_SET_SPK_SIZE, LEASE_SIZE]
  constructor
  · intro w ht hw
    have hss : SignatureSize d.cert = w := by
      simp only [SignatureSize, hw, Option.getD_some]
    simp only [leaseSetSignature, hd, hc, hstart, if_pos ht, hss]
    constructor
    · intro hfit
      rw [if_neg (by omega)]
      refine ⟨by rw [Nat.add_sub_cancel_left], ?_⟩
      rw [Nat.add_sub_cancel_left]
      simp only [List.length_take, List.length_drop]
      omega
    · intro hshort
      rw [if_pos (by omega)]
      exact ⟨by simp, rfl⟩
  · intro ht
    simp only [leaseSetSignature, hd, hc, hstart, if_neg ht, LEASE_SET_SIG_SIZE]
    constructor
    · intro hfit
      rw [if_neg (by omega)]
      refine ⟨by rw [Nat.add_sub_cancel_left], ?_⟩
      rw [Nat.add_sub_cancel_left]
      simp only [List.length_take, List.length_drop]
      omega
    · intro hshort
      rw [if_pos (by omega)]
      exact ⟨by simp, rfl⟩

/-- LeaseSet witness input with a KEY certificate declaring signing type 0. -/
def lsKey : Bytes :=
  List.replicate 384 0 ++ [5, 0, 4] ++ [0, 0, 0, 0] ++ List.replicate 256 0 ++
    List.replicate 128 0 ++ [0] ++ List.replicate 40 1

/-- The Destination parsed from `lsKey`. -/
def destKey : KeysAndCert :=
  { keyBytes := List.replicate 384 0,
    cert := { kind := [5], len := [0, 4], payload := [0, 0, 0, 0] } }

/-- LeaseSet witness input with a non-KEY (SIGNED) certificate. -/
def lsSigned : Bytes :=
  List.replicate 384 0 ++ [3, 0, 0] ++ List.replicate 256 0 ++
    List.replicate 128 0 ++ [0] ++ List.replicate 40 4

/-- The Destination parsed from `lsSigned`. -/
def destSigned : KeysAndCert :=
  { keyBytes := List.replicate 384 0,
    cert := { kind := [3], len := [0, 0], payload := [] } }

/-- LeaseSet witness input like `lsSigned` but with a truncated signature. -/
def lsTruncated : Bytes :=
  List.replicate 384 0 ++ [3, 0, 0] ++ List.replicate 256 0 ++
    List.replicate 128 0 ++ [0] ++ List.replicate 39 4

/-- Witness for `c6_leaseSet_signature_width`: `lsKey` yields the 40-byte
DSA-SHA1 signature selected through its KEY certificate, `lsSigned` the
40-byte default, and `lsTruncated` a hard error. -/
theorem c6_leaseSet_signature_width_witness :
    (leaseSetSignature lsKey = ((lsKey.drop 776).take 40, none)
      ∧ (leaseSetSignature lsKey).1.length = 40)
    ∧ (leaseSetSignature lsSigned = ((lsSigned.drop 772).take 40, none)
      ∧ (leaseSetSignature lsSigned).1.length = 40)
    ∧ ((leaseSetSignature lsTruncated).2 ≠ none
      ∧ (leaseSetSignature lsTruncated).1 = []) := by
  refine ⟨?_, ?_, ?_⟩
  · exact ((c6_leaseSet_signature_width lsKey destKey 0 (by rfl) (by rfl)).1
      40 (by rfl) (by rfl)).1 (by decide)
  · exact ((c6_leaseSet_signature_width lsSigned destSigned 0 (by rfl) (by rfl)).2
      (by decide)).1 (by decide)
  · exact ((c6_leaseSet_signature_width lsTruncated destSigned 0 (by rfl) (by rfl)).2
      (by decide)).2 (by decide)

/-- RouterInfo input whose options Mapping is malformed: a 387-byte identity
(NULL certificate), an 8-byte date, address count 0, peer-size byte 7, the
mapping `[0, 1, 1]` (declared body size 1, body `[1]`, a truncated I2PString
key, hence a parse error), and a full 40-byte signature. -/
def riBadMapping : Bytes :=
  List.replicate 384 0 ++ [0, 0, 0] ++ List.replicate 8 0 ++ [0] ++ [7] ++
    [0, 1, 1] ++ List.replicate 40 2

/-- Claim C8 demonstration at the failing input `riBadMapping`: the options
Mapping read at offset 397 (after identity, date, size and peer-size bytes)
produces a non-empty error list, yet `ReadRouterInfo` returns a nil error,
because the Go code assigns `err` from the mapping errors and then overwrites
it with the result of the following successful signature read. -/
theorem c8_mapping_error_swallowed :
    (NewMapping (riBadMapping.drop 397)).2.2 ≠ []
    ∧ (readRouterInfo riBadMapping).2.2 = none
    ∧ (readRouterInfo riBadMapping).2.1 = [] := by
  refine ⟨by decide, by decide, by decide⟩

/-- RouterInfo input that parses cleanly and carries the nonzero peer-size
byte 7: identity (387 bytes, NULL certificate), date, address count 0,
peer-size 7, an empty well-formed mapping `[0, 0]`, and a 40-byte signature. -/
def riPeer7 : Bytes :=
  List.replicate 384 0 ++ [0, 0, 0] ++ List.replicate 8 0 ++ [0] ++ [7] ++
    [0, 0] ++ List.replicate 40 3

/-- Claim C10: `PeerSize` returns 0 for every RouterInfo regardless of the
stored field, while `Bytes` re-serializes the stored peer-size byte: the
RouterInfo parsed from `riPeer7` stores peer-size byte 7, reports
`PeerSize = 0`, and `Bytes` reproduces the input including that byte. -/
theorem c10_peerSize_zero_but_roundtrips :
    (∀ ri : RouterInfo, PeerSize ri = 0)
    ∧ (readRouterInfo riPeer7).2.2 = none
    ∧ (readRouterInfo riPeer7).1.peer_size = [7]
    ∧ PeerSize (readRouterInfo riPeer7).1 = 0
    ∧ (readRouterInfo riPeer7).1.Bytes = riPeer7 := by
  refine ⟨fun _ => rfl, by decide, by decide, rfl, by decide⟩

end GoI2P
